import Mathlib

/-!
Verification development for the talk-to-claude (TTC) call server.

The definitions below are shallow embeddings of the TypeScript sources:

* `server/src/providers/sms-twilio.ts` (Nova Sonic provider file): the µ-law
  codec helpers `mulawDecode` / `mulawEncode`, the audio conversion utilities
  `NovaSonicAudio.mulawToNovaSonicPCM` / `novaSonicPCMToMulaw`, and the
  outbound event iterator of `NovaSonicSessionImpl.createAsyncIterable`.
* `server/src/phone-call.ts`: `CallManager.startServer` (the `/media-stream`
  upgrade handler), `sendMediaChunk`, `speakStreaming`, `resample24kTo8k`,
  `pcmToMuLaw`, the Twilio `completed` webhook handling, and the hang-up
  polling of `waitForUserSpeech`.
* `server/src/providers/stt-self-hosted.ts`: `MULAW_DECODE_TABLE`.
* `server/src/tools.ts`: `executeTool`.
* `server/src/index.ts`: the MCP tool-call error wrapping.

JavaScript numbers in this code are always exact small integers (buffers of
16-bit samples, 8-bit µ-law bytes, queue lengths), so they are embedded as
`Nat` / `Int`.  Bitwise operations in the sources are applied either to a
byte value already reduced to 8 bits or to a value whose low bits alone are
read by the following masks; each embedding notes the correspondence.
Buffers are embedded as `List Nat` (bytes) or `List Int` (16-bit samples).
-/

set_option maxRecDepth 4000

namespace TTC

/-! ### µ-law codec

Embeds the codec helpers at the bottom of `sms-twilio.ts` (the Nova Sonic
provider file, lines 1140-1163).  The identical functions also appear as
`CallManager.pcmToMuLawSample` in `phone-call.ts` (lines 1125-1138).
-/

/-- The exponent search loop of `mulawEncode`:
`for (let expMask = 0x4000; (pcm & expMask) === 0 && exponent > 0; exponent--) expMask >>= 1;`
starting at `exponent = 7`, `expMask = 0x4000`.  `p` is the biased magnitude,
a natural number, so the JS `&` is `Nat` bitwise and. -/
def muExpLoop (p : Nat) : Nat → Nat → Nat
  | 0, _ => 0
  | e + 1, mask => if p &&& mask = 0 then muExpLoop p e (mask >>> 1) else e + 1

/-- `mulawDecode(mulaw)` from `sms-twilio.ts`.  The JS code computes
`mulaw = ~mulaw` and then reads only the low 8 bits through the masks
`& 0x80`, `(>> 4) & 0x07`, `& 0x0f`; for a byte argument `b` (the call sites
pass `Buffer` bytes, 0..255) this is the complement of the low 8 bits,
embedded as `(b % 256) ^^^ 0xff`.  The reconstruction
`((mantissa << 3) + 0x84) << exponent` stays below 2^15, so no 32-bit
wrap-around occurs. -/
def mulawDecode (b : Nat) : Int :=
  let mu := (b % 256) ^^^ 0xff
  let sign := mu &&& 0x80
  let exponent := (mu >>> 4) &&& 0x07
  let mantissa := mu &&& 0x0f
  let sample : Int := (((mantissa <<< 3) + 0x84) <<< exponent : Nat)
  let sample := sample - 0x84
  if sign ≠ 0 then -sample else sample

/-- `mulawEncode(pcm)` from `sms-twilio.ts`.  The argument is a 16-bit sample
read by `readInt16LE`, so `pcm ∈ [-32768, 32767]`; on that range the JS sign
extraction `(pcm >> 8) & 0x80` equals `0x80` exactly when `pcm < 0`.  After
`if (sign) pcm = -pcm`, clipping to 32635 and adding the 0x84 bias the value
is a positive natural, so the remaining shifts and masks are `Nat` bitwise
operations, and the final `(~x) & 0xff` is `x ^^^ 0xff` because
`x = sign | (exponent << 4) | mantissa ≤ 255`. -/
def mulawEncode (pcm : Int) : Nat :=
  let sign : Nat := if pcm < 0 then 0x80 else 0
  let pcm := if sign ≠ 0 then -pcm else pcm
  let pcm := if pcm > 32635 then 32635 else pcm
  let pcm := pcm + 0x84
  let p : Nat := pcm.toNat
  let exponent := muExpLoop p 7 0x4000
  let mantissa := (p >>> (exponent + 3)) &&& 0x0f
  (sign ||| (exponent <<< 4) ||| mantissa) ^^^ 0xff

/-- Entry `i` of `MULAW_DECODE_TABLE` from `stt-self-hosted.ts` (lines 48-60):
`mu = ~i & 0xff`, then sign/exponent/mantissa extraction, then
`mantissa = (mantissa << 1) | 1; mantissa = (mantissa << exponent) + (1 << exponent) - 1;
mantissa = mantissa << 2;` and sign application.  The magnitude is at most
16380, so storing into the `Int16Array` does not wrap.  The `Nat`
subtraction `- 1` is exact because `(m1 <<< e) + (1 <<< e) ≥ 2`. -/
def tableDecode (i : Nat) : Int :=
  let mu := (i % 256) ^^^ 0xff
  let sign := mu &&& 0x80
  let exponent := (mu >>> 4) &&& 0x07
  let mantissa := mu &&& 0x0f
  let m1 := (mantissa <<< 1) ||| 1
  let m2 := (m1 <<< exponent) + (1 <<< exponent) - 1
  let m3 := m2 <<< 2
  if sign ≠ 0 then -(m3 : Int) else (m3 : Int)

/-- Modelled from the spec (section 4.1), for comparison with the source
decoders: "invert the bits of b, extract the sign bit, 3-bit exponent e, and
4-bit mantissa m, reconstruct (((m<<3)+0x84)<<e) − 0x84, and apply the sign".
Written with plain arithmetic (division and powers) rather than the source's
bit operations, so that agreement with `mulawDecode` is a genuine
refinement check. -/
def mulawDecodeRef (b : Nat) : Int :=
  let mu := (b % 256) ^^^ 0xff
  let sign := mu / 128
  let e := (mu / 16) % 8
  let m := mu % 16
  let mag : Int := ((m * 8 + 0x84) * 2 ^ e : Nat) - 0x84
  if sign = 1 then -mag else mag

example : mulawDecode 255 = 0 := by decide
example : tableDecode 255 = 4 := by decide
example : mulawEncode (mulawDecode 37) = 37 := by decide

/-! ### Claim C5 -/

/-- C5, counterexample: the table-based decoder of the self-hosted STT VAD
does not compute the reference µ-law decoding.  At byte 0xFF the table holds
4 while `mulawDecode` (which follows the reference procedure) returns 0. -/
theorem tableDecode_differs_from_reference :
    tableDecode 255 = 4 ∧ mulawDecode 255 = 0 ∧ mulawDecodeRef 255 = 0 ∧
      tableDecode 255 ≠ mulawDecodeRef 255 := by
  decide

/-- C5, amended: for every byte, `mulawDecode` (the decoder of the Nova Sonic
audio bridge) returns exactly the value of the spec's reference procedure;
the table-based decoder of the self-hosted STT VAD computes a different
function (see the counterexample at byte 0xFF). -/
theorem mulawDecode_matches_reference :
    ∀ b : Nat, b < 256 → mulawDecode b = mulawDecodeRef b := by
  decide

/-- C5, witness: the amended theorem applied at byte 200. -/
theorem mulawDecode_matches_reference_witness :
    mulawDecode 200 = mulawDecodeRef 200 :=
  mulawDecode_matches_reference 200 (by decide)

/-! ### Claim C6 -/

/-- C6: µ-law encode∘decode is stable on its output: for every µ-law byte x,
`mulawEncode (mulawDecode (mulawEncode (mulawDecode x))) = mulawEncode (mulawDecode x)`. -/
theorem mulaw_encode_decode_stable :
    ∀ x : Nat, x < 256 →
      mulawEncode (mulawDecode (mulawEncode (mulawDecode x))) =
        mulawEncode (mulawDecode x) := by
  decide

/-- C6, witness: the stability theorem applied at byte 37. -/
theorem mulaw_encode_decode_stable_witness :
    mulawEncode (mulawDecode (mulawEncode (mulawDecode 37))) =
      mulawEncode (mulawDecode 37) :=
  mulaw_encode_decode_stable 37 (by decide)

/-! ### Resampling

Embeds `CallManager.resample24kTo8k` (`phone-call.ts` lines 1096-1114; the
identical loop is step 1 of `NovaSonicAudio.novaSonicPCMToMulaw` in
`sms-twilio.ts`), the upsampling loop of `NovaSonicAudio.mulawToNovaSonicPCM`
(step 2, lines 1093-1103 of `sms-twilio.ts`), and `CallManager.pcmToMuLaw`.
Buffers of 16-bit little-endian samples are embedded as `List Int` of the
samples read by `readInt16LE`.
-/

/-- JS `Math.round(sum / 3)` for an integer `sum`: `Math.round x = ⌊x + 1/2⌋`
(halves round toward +∞), and `⌊sum/3 + 1/2⌋ = ⌊(2*sum + 3) / 6⌋` with floor
division. -/
def jsRound3 (sum : Int) : Int := Int.fdiv (2 * sum + 3) 6

/-- JS `Math.round(sum / 2)` for an integer `sum`:
`⌊sum/2 + 1/2⌋ = ⌊(sum + 1) / 2⌋` with floor division. -/
def jsRound2 (sum : Int) : Int := Int.fdiv (sum + 1) 2

/-- `resample24kTo8k(pcmData)`: `outputSamples = Math.floor(inputSamples / 3)`,
and for each output index `i` the average of the three samples at `3i`,
`3i+1`, `3i+2`, the out-of-range ones (dead branches, kept for faithfulness)
replaced by their left neighbour. -/
def resample24kTo8k (pcmData : List Int) : List Int :=
  let inputSamples := pcmData.length
  let outputSamples := inputSamples / 3
  (List.range outputSamples).map (fun i =>
    let baseIdx := 3 * i
    let s0 := pcmData.getD baseIdx 0
    let s1 := if baseIdx + 1 < inputSamples then pcmData.getD (baseIdx + 1) 0 else s0
    let s2 := if baseIdx + 2 < inputSamples then pcmData.getD (baseIdx + 2) 0 else s1
    jsRound3 (s0 + s1 + s2))

/-- Step 2 of `NovaSonicAudio.mulawToNovaSonicPCM`: for each 8 kHz sample,
emit the sample followed by `Math.round((sample + nextSample) / 2)` where the
last sample repeats (`nextSample = sample` at the end). -/
def upsample8kTo16k (pcm8k : List Int) : List Int :=
  let samples8k := pcm8k.length
  (List.range samples8k).flatMap (fun i =>
    let sample := pcm8k.getD i 0
    let nextSample := if i + 1 < samples8k then pcm8k.getD (i + 1) 0 else sample
    let interpolated := jsRound2 (sample + nextSample)
    [sample, interpolated])

/-- `CallManager.pcmToMuLaw`: encode each 16-bit sample with
`pcmToMuLawSample` (which is `mulawEncode`). -/
def pcmToMuLaw (pcmData : List Int) : List Nat :=
  pcmData.map mulawEncode

lemma getD_replicate (n k : Nat) (c : Int) (h : k < n) :
    (List.replicate n c).getD k 0 = c := by
  induction n generalizing k with
  | zero => omega
  | succ n ih =>
    cases k with
    | zero => simp [List.replicate_succ]
    | succ k =>
      simp only [List.replicate_succ, List.getD_cons_succ]
      exact ih k (by omega)

lemma jsRound3_triple (c : Int) : jsRound3 (c + c + c) = c := by
  unfold jsRound3
  rw [Int.fdiv_eq_ediv _ (by norm_num)]
  omega

lemma jsRound2_double (c : Int) : jsRound2 (c + c) = c := by
  unfold jsRound2
  rw [Int.fdiv_eq_ediv _ (by norm_num)]
  omega

lemma flatMap_const_pair (l : List Nat) (c : Int) :
    l.flatMap (fun _ => [c, c]) = List.replicate (2 * l.length) c := by
  induction l with
  | nil => simp
  | cons a l ih =>
    have h : 2 * (a :: l).length = (2 * l.length) + 1 + 1 := by
      simp [List.length_cons]; omega
    simp only [List.flatMap_cons, ih, h, List.replicate_succ]
    rfl

/-! ### Claim C7 -/

/-- C7: a constant 16-bit PCM signal is preserved exactly by both resamplers:
the 24 kHz→8 kHz downsampler returns the constant at one third the length,
and the 8 kHz→16 kHz upsampler returns the constant at twice the length. -/
theorem resample_constant_signal (n : Nat) (c : Int)
    (_hlo : -32768 ≤ c) (_hhi : c ≤ 32767) :
    resample24kTo8k (List.replicate n c) = List.replicate (n / 3) c ∧
      upsample8kTo16k (List.replicate n c) = List.replicate (2 * n) c := by
  constructor
  · unfold resample24kTo8k
    simp only [List.length_replicate]
    have h2 : (List.range (n / 3)).map (fun _ : Nat => c) = List.replicate (n / 3) c := by
      simp [List.map_const']
    rw [← h2]
    apply List.map_congr_left
    intro i hi
    have hi3 : i < n / 3 := List.mem_range.mp hi
    have hb : 3 * i + 2 < n := by omega
    rw [getD_replicate n (3 * i) c (by omega)]
    rw [if_pos (by omega : 3 * i + 1 < n), getD_replicate n (3 * i + 1) c (by omega)]
    rw [if_pos hb, getD_replicate n (3 * i + 2) c hb]
    exact jsRound3_triple c
  · unfold upsample8kTo16k
    simp only [List.length_replicate]
    have h2 : (List.range n).flatMap (fun _ : Nat => [c, c]) = List.replicate (2 * n) c := by
      rw [flatMap_const_pair]
      simp
    rw [← h2]
    apply List.flatMap_congr
    intro i hi
    have hin : i < n := List.mem_range.mp hi
    rw [getD_replicate n i c hin]
    by_cases h1 : i + 1 < n
    · rw [if_pos h1, getD_replicate n (i + 1) c h1, jsRound2_double c]
    · rw [if_neg h1, jsRound2_double c]

/-- C7, witness: the resampler theorem at a 7-sample signal of constant 1234. -/
theorem resample_constant_signal_witness :
    resample24kTo8k (List.replicate 7 1234) = List.replicate 2 1234 ∧
      upsample8kTo16k (List.replicate 7 1234) = List.replicate 14 1234 :=
  resample_constant_signal 7 1234 (by decide) (by decide)

/-! ### Call manager state

Embeds the per-call state (`CallState` in `phone-call.ts`, restricted to the
fields the claims touch) and the `CallManager` registry maps.  JS `Map`
iterates in insertion order, so each map is an association list in insertion
order; `Map.get` is `alGet` (first match), mutating a stored object is
`alSet`, `Map.delete` is `alRemove`, and `Array.from(map.keys())` ending with
the most recently created entry corresponds to `List.getLast?`.
-/

/-- Association-list lookup, embedding `Map.get` (keys are unique in a JS
`Map`; the first match is returned). -/
def alGet {α : Type} : List (String × α) → String → Option α
  | [], _ => none
  | p :: rest, k => if p.1 == k then some p.2 else alGet rest k

/-- Update the value stored under a key in place, embedding a field mutation
on the object obtained from `Map.get`. -/
def alSet {α : Type} : List (String × α) → String → (α → α) → List (String × α)
  | [], _, _ => []
  | p :: rest, k, f =>
    (if p.1 == k then (p.1, f p.2) else p) :: alSet rest k f

/-- Remove a key, embedding `Map.delete`. -/
def alRemove {α : Type} : List (String × α) → String → List (String × α)
  | [], _ => []
  | p :: rest, k => if p.1 == k then alRemove rest k else p :: alRemove rest k

/-- Key of the last (most recently inserted) entry:
`Array.from(map.keys())[length - 1]`. -/
def lastKey {α : Type} (l : List (String × α)) : Option String :=
  l.getLast?.map (fun p => p.1)

/-- The fields of `CallState` (`phone-call.ts` lines 25-47) used by the
claims.  `wsOpen` embeds `ws !== null && ws.readyState === WebSocket.OPEN`. -/
structure CallState where
  wsToken : String
  wsOpen : Bool
  streamSid : Option String
  streamingReady : Bool
  hungUp : Bool
deriving DecidableEq

/-- The `CallManager` fields consulted by the upgrade handler and the phone
webhook: the three registries, the hostname of `config.wsUrl`, and the
`config.usingNgrok` flag (carried along to show which of the two the code
actually reads). -/
structure ManagerState where
  activeCalls : List (String × CallState)
  callControlIdToCallId : List (String × String)
  wsTokenToCallId : List (String × String)
  wsHost : String
  usingNgrok : Bool
deriving DecidableEq

/-- Modelled from the spec: `webhook-security.ts` is not under `src/` (only
its import in `phone-call.ts` is).  Spec section 4.2: "verifyWsToken(expected,
provided) → bool: constant-time byte comparison; lengths differ ⇒ false" —
extensionally, byte-string equality. -/
def validateWebSocketToken (expected provided : String) : Bool :=
  expected == provided

/-- `String.endsWith`, written as a character-list suffix test so that it is
kernel-computable. -/
def strEndsWith (s suffix : String) : Bool :=
  suffix.data.isSuffixOf s.data

/-- The ngrok-host test of the upgrade handler (`phone-call.ts` lines
165-166): `wsHost.endsWith('.ngrok-free.dev') || wsHost.endsWith('.ngrok.io')`. -/
def isNgrokWsHost (wsHost : String) : Bool :=
  strEndsWith wsHost ".ngrok-free.dev" || strEndsWith wsHost ".ngrok.io"

/-- Outcome of a `/media-stream` upgrade request.  `acceptPlaceholder` is the
ngrok-fallback acceptance with a fresh `pending-<Date.now()>` call id (the
timestamp is abstracted away). -/
inductive UpgradeDecision where
  | accept (callId : String)
  | acceptPlaceholder
  | reject401
deriving DecidableEq

/-- The untokenized branch of the upgrade handler (`phone-call.ts` lines
163-186), reached when the token is missing or not found in the registry:
when the WebSocket host is an ngrok domain, bind to the most recent active
call, or accept with a `pending-` placeholder when there is none; otherwise
reject with 401. -/
def upgradeFallback (m : ManagerState) : UpgradeDecision :=
  if isNgrokWsHost m.wsHost then
    match lastKey m.activeCalls with
    | some callId => .accept callId
    | none => .acceptPlaceholder
  else .reject401

/-- The `/media-stream` upgrade handler (`phone-call.ts` lines 146-196):
look up the call id for the presented token (`if (token && callId)`); a
tokenized request whose call and stored token check out is accepted,
otherwise 401; a request whose token is missing or unknown (`else if
(!callId)`) takes the fallback branch. -/
def handleUpgrade (m : ManagerState) (token : Option String) : UpgradeDecision :=
  match token with
  | some t =>
    match alGet m.wsTokenToCallId t with
    | some callId =>
      match alGet m.activeCalls callId with
      | none => .reject401
      | some state =>
        if validateWebSocketToken state.wsToken t = false then .reject401
        else .accept callId
    | none => upgradeFallback m
  | none => upgradeFallback m

/-- The `connection` handler (`phone-call.ts` lines 198-205): after a
successful upgrade the socket is stored on the call state (`state.ws = ws`),
making it open.  Nothing else changes; in particular the token registry is
untouched. -/
def bindSocket (m : ManagerState) (callId : String) : ManagerState :=
  { m with activeCalls := alSet m.activeCalls callId (fun st => { st with wsOpen := true }) }

lemma alGet_alSet_self {α : Type} (l : List (String × α)) (k : String) (f : α → α) :
    alGet (alSet l k f) k = (alGet l k).map f := by
  induction l with
  | nil => rfl
  | cons p l ih =>
    by_cases h : p.1 == k
    · simp [alGet, alSet, h]
    · simpa [alGet, alSet, h] using ih

lemma alGet_alRemove_self {α : Type} (l : List (String × α)) (k : String) :
    alGet (alRemove l k) k = none := by
  induction l with
  | nil => rfl
  | cons p l ih =>
    by_cases h : p.1 == k
    · simpa [alRemove, h] using ih
    · simpa [alGet, alRemove, h] using ih

/-! ### Claim C1 -/

/-- C1, counterexample: tokens are not single-use.  In a registry with one
active call holding token "tok", a first upgrade presenting "tok" is accepted
and binds the socket; a second upgrade presenting the same token is accepted
again instead of being rejected with 401. -/
theorem wsToken_second_upgrade_accepted :
    let st : CallState :=
      { wsToken := "tok", wsOpen := false, streamSid := none,
        streamingReady := false, hungUp := false }
    let m : ManagerState :=
      { activeCalls := [("call-1", st)],
        callControlIdToCallId := [("CA1", "call-1")],
        wsTokenToCallId := [("tok", "call-1")],
        wsHost := "example.com", usingNgrok := false }
    handleUpgrade m (some "tok") = .accept "call-1" ∧
      handleUpgrade (bindSocket m "call-1") (some "tok") = .accept "call-1" ∧
      handleUpgrade (bindSocket m "call-1") (some "tok") ≠ .reject401 := by
  decide

/-- C1, amended: a `/media-stream` upgrade presenting token t succeeds
whenever t maps to an active call whose stored `wsToken` equals t; accepting
an upgrade does not invalidate the token, so a repeated upgrade with the same
token is accepted again (rebinding the socket) rather than rejected with 401.
The token only stops working when `endCall` deletes its registry entry. -/
theorem wsToken_upgrade_not_single_use (m : ManagerState) (t callId : String)
    (st : CallState)
    (h1 : alGet m.wsTokenToCallId t = some callId)
    (h2 : alGet m.activeCalls callId = some st)
    (h3 : st.wsToken = t) :
    handleUpgrade m (some t) = .accept callId ∧
      handleUpgrade (bindSocket m callId) (some t) = .accept callId := by
  have hval : validateWebSocketToken st.wsToken t = true := by
    simp [validateWebSocketToken, h3]
  constructor
  · simp [handleUpgrade, h1, h2, hval]
  · have h2' : alGet (bindSocket m callId).activeCalls callId =
        some { st with wsOpen := true } := by
      simp [bindSocket, alGet_alSet_self, h2]
    simp [handleUpgrade, bindSocket, alGet_alSet_self, h1, h2, hval]

/-- C1, witness: the amended theorem at a concrete two-call registry. -/
theorem wsToken_upgrade_not_single_use_witness :
    handleUpgrade
      { activeCalls :=
          [("call-7", { wsToken := "tokA", wsOpen := false, streamSid := none,
                        streamingReady := false, hungUp := false })],
        callControlIdToCallId := [], wsTokenToCallId := [("tokA", "call-7")],
        wsHost := "example.org", usingNgrok := false } (some "tokA") =
      .accept "call-7" ∧
    handleUpgrade
      (bindSocket
        { activeCalls :=
            [("call-7", { wsToken := "tokA", wsOpen := false, streamSid := none,
                          streamingReady := false, hungUp := false })],
          callControlIdToCallId := [], wsTokenToCallId := [("tokA", "call-7")],
          wsHost := "example.org", usingNgrok := false } "call-7") (some "tokA") =
      .accept "call-7" :=
  wsToken_upgrade_not_single_use
    { activeCalls :=
        [("call-7", { wsToken := "tokA", wsOpen := false, streamSid := none,
                      streamingReady := false, hungUp := false })],
      callControlIdToCallId := [], wsTokenToCallId := [("tokA", "call-7")],
      wsHost := "example.org", usingNgrok := false }
    "tokA" "call-7"
    { wsToken := "tokA", wsOpen := false, streamSid := none,
      streamingReady := false, hungUp := false }
    (by decide) (by decide) (by decide)

/-! ### Claim C9 -/

/-- C9, counterexample: the untokenized-upgrade fallback does not consult the
tunneled-deployment flag.  With `usingNgrok = true` but a non-ngrok WebSocket
host, an untokenized upgrade is rejected with 401 even though an active
session exists, contrary to the claim that the configured flag enables the
fallback binding. -/
theorem untokenized_upgrade_ignores_flag :
    let m : ManagerState :=
      { activeCalls :=
          [("call-1", { wsToken := "tok", wsOpen := false, streamSid := none,
                        streamingReady := false, hungUp := false })],
        callControlIdToCallId := [], wsTokenToCallId := [("tok", "call-1")],
        wsHost := "calls.example.com", usingNgrok := true }
    m.usingNgrok = true ∧ handleUpgrade m none = .reject401 := by
  decide

/-- C9, amended: the untokenized-upgrade policy is decided by the hostname of
the configured WebSocket URL, not by the tunneled-deployment (ngrok) flag:
the fallback applies exactly when the host ends in ".ngrok-free.dev" or
".ngrok.io"; then the socket is bound to the most recently created active
session, or accepted under a placeholder id when no session exists; all other
untokenized upgrades get 401.  The decision is unchanged by flipping the
`usingNgrok` flag. -/
theorem untokenized_upgrade_policy (m : ManagerState) :
    (isNgrokWsHost m.wsHost = false → handleUpgrade m none = .reject401) ∧
      (isNgrokWsHost m.wsHost = true →
        ∀ callId, lastKey m.activeCalls = some callId →
          handleUpgrade m none = .accept callId) ∧
      (isNgrokWsHost m.wsHost = true → m.activeCalls = [] →
        handleUpgrade m none = .acceptPlaceholder) ∧
      (∀ b, handleUpgrade { m with usingNgrok := b } none = handleUpgrade m none) := by
  refine ⟨?_, ?_, ?_, ?_⟩
  · intro h
    simp [handleUpgrade, upgradeFallback, h]
  · intro h callId hlast
    simp [handleUpgrade, upgradeFallback, h, hlast]
  · intro h hempty
    simp [handleUpgrade, upgradeFallback, h, hempty, lastKey]
  · intro b
    rfl

/-- C9, witness: the policy theorem at a concrete ngrok-hosted registry with
one active call, and at the same registry with a plain host. -/
theorem untokenized_upgrade_policy_witness :
    handleUpgrade
      { activeCalls :=
          [("call-3", { wsToken := "t3", wsOpen := false, streamSid := none,
                        streamingReady := false, hungUp := false })],
        callControlIdToCallId := [], wsTokenToCallId := [("t3", "call-3")],
        wsHost := "abc.ngrok.io", usingNgrok := false } none = .accept "call-3" ∧
    handleUpgrade
      { activeCalls :=
          [("call-3", { wsToken := "t3", wsOpen := false, streamSid := none,
                        streamingReady := false, hungUp := false })],
        callControlIdToCallId := [], wsTokenToCallId := [("t3", "call-3")],
        wsHost := "plain.example.net", usingNgrok := false } none = .reject401 :=
  ⟨(untokenized_upgrade_policy _).2.1 (by decide) "call-3" (by decide),
   (untokenized_upgrade_policy _).1 (by decide)⟩

/-! ### Claim C2 -/

/-- An outbound media envelope as written by `sendMediaChunk`
(`phone-call.ts` lines 922-932): the JSON object always carries the base64
payload (embedded here as the raw bytes) and carries `streamSid` only when
the call state has one. -/
structure MediaMessage where
  streamSid : Option String
  payload : List Nat
deriving DecidableEq

/-- `CallManager.sendMediaChunk`: returns without sending unless the socket
is open; otherwise sends the media envelope, including the `streamSid` field
exactly when `state.streamSid` is set.  Neither `streamSid ≠ null` nor
`streamingReady` is checked before sending. -/
def sendMediaChunk (state : CallState) (audioData : List Nat) : Option MediaMessage :=
  if state.wsOpen = false then none
  else some { streamSid := state.streamSid, payload := audioData }

/-- C2, counterexample: an outbound media envelope is transmitted while the
session's `streamSid` is null and streaming has not been acknowledged — the
only guard in `sendMediaChunk` is that the socket is open. -/
theorem sendMediaChunk_sends_without_streamSid :
    let st : CallState :=
      { wsToken := "tok", wsOpen := true, streamSid := none,
        streamingReady := false, hungUp := false }
    st.streamSid = none ∧ st.streamingReady = false ∧
      sendMediaChunk st [0, 1, 2] = some { streamSid := none, payload := [0, 1, 2] } := by
  decide

/-- C2, amended: `sendMediaChunk` transmits exactly when the media socket is
open, regardless of `streamSid` and of streaming acknowledgement; the
envelope carries the session's current `streamSid` (absent when null) and the
audio payload. -/
theorem sendMediaChunk_guard (state : CallState) (audioData : List Nat) :
    (sendMediaChunk state audioData = none ↔ state.wsOpen = false) ∧
      (state.wsOpen = true →
        sendMediaChunk state audioData =
          some { streamSid := state.streamSid, payload := audioData }) := by
  constructor
  · unfold sendMediaChunk
    by_cases h : state.wsOpen = false <;> simp [h]
  · intro h
    simp [sendMediaChunk, h]

/-- C2, witness: the guard theorem at an open socket with a set streamSid and
at a closed socket. -/
theorem sendMediaChunk_guard_witness :
    sendMediaChunk
      { wsToken := "w", wsOpen := true, streamSid := some "MZ123",
        streamingReady := true, hungUp := false } [7] =
      some { streamSid := some "MZ123", payload := [7] } ∧
    sendMediaChunk
      { wsToken := "w", wsOpen := false, streamSid := some "MZ123",
        streamingReady := true, hungUp := false } [7] = none :=
  ⟨(sendMediaChunk_guard _ [7]).2 (by decide),
   (sendMediaChunk_guard _ [7]).1.mpr (by decide)⟩

/-! ### Claim C3

Embeds the terminal-status branch of `CallManager.handleTwilioWebhook`
(`phone-call.ts` lines 373-389), the 100 ms hang-up polling of
`waitForUserSpeech` (lines 583-612), and the MCP error wrapping of tool-call
handlers in `index.ts` (lines 249-255).
-/

/-- The Twilio webhook branch for `CallStatus ∈ completed/busy/no-answer/failed`:
look up the call by `CallSid`, delete the `callControlIdToCallId` entry, mark
the call state hung up and close its socket.  The call is NOT deleted from
`activeCalls`. -/
def handleTwilioWebhookCompleted (m : ManagerState) (callSid : String) : ManagerState :=
  match alGet m.callControlIdToCallId callSid with
  | some callId =>
    { m with
      callControlIdToCallId := alRemove m.callControlIdToCallId callSid,
      activeCalls := alSet m.activeCalls callId
        (fun st => { st with hungUp := true, wsOpen := false }) }
  | none => m

/-- The `setInterval` period of the hang-up check in `waitForUserSpeech`. -/
def HANGUP_POLL_INTERVAL_MS : Nat := 100

/-- The rejection message of the hang-up check in `waitForUserSpeech` and of
`listen` (`phone-call.ts` lines 608 and 1069). -/
def hangupErrorMessage : String := "Call was hung up by user"

/-- Time at which the hang-up poll of `waitForUserSpeech` first observes
`hungUp` when the webhook sets it at time `t` (milliseconds after the wait
started): the interval fires at 100, 200, 300, ..., and the first firing at
or after `t` rejects the wait. -/
def hangupRejectTime (t : Nat) : Nat :=
  max HANGUP_POLL_INTERVAL_MS
    (HANGUP_POLL_INTERVAL_MS *
      ((t + HANGUP_POLL_INTERVAL_MS - 1) / HANGUP_POLL_INTERVAL_MS))

/-- A tool-call response of the MCP server in `index.ts`. -/
structure MCPResult where
  text : String
  isError : Bool
deriving DecidableEq

/-- The `continue_call` handler of `index.ts` (lines 209-215 and the
surrounding try/catch, lines 249-255): a resolved call produces the user's
response text; a rejection is caught and wrapped as an `isError` result with
the message prefixed by `Error: `. -/
def mcpContinueCallResult (outcome : Except String String) : MCPResult :=
  match outcome with
  | .ok response => { text := "User\x27s response:\n" ++ response, isError := false }
  | .error msg => { text := "Error: " ++ msg, isError := true }

/-- C3, counterexample: the carrier's `completed` webhook does not remove the
session from the active-call registry.  After the webhook for the mapped
call, the session is still present in `activeCalls` (merely marked hung up),
contradicting the claimed removal. -/
theorem hangup_keeps_session_in_registry :
    let m : ManagerState :=
      { activeCalls :=
          [("call-1", { wsToken := "tok", wsOpen := true, streamSid := some "MZ1",
                        streamingReady := false, hungUp := false })],
        callControlIdToCallId := [("CA1", "call-1")],
        wsTokenToCallId := [("tok", "call-1")],
        wsHost := "example.com", usingNgrok := false }
    alGet (handleTwilioWebhookCompleted m "CA1").activeCalls "call-1" =
      some { wsToken := "tok", wsOpen := false, streamSid := some "MZ1",
             streamingReady := false, hungUp := true } ∧
    alGet (handleTwilioWebhookCompleted m "CA1").activeCalls "call-1" ≠ none := by
  decide

/-- C3, amended: when the carrier posts `CallStatus=completed` during a
`continue_call` wait, the webhook marks the session hung up, closes its
socket and deletes the carrier-ref mapping; the 100 ms hang-up poll then
rejects the wait within 200 ms with the hang-up message, and `continue_call`
surfaces it as an error result — but the session remains in the active-call
registry (only `end_call` removes it). -/
theorem hangup_during_continue_call (m : ManagerState) (callSid callId : String)
    (st : CallState) (t : Nat)
    (h1 : alGet m.callControlIdToCallId callSid = some callId)
    (h2 : alGet m.activeCalls callId = some st) :
    alGet (handleTwilioWebhookCompleted m callSid).activeCalls callId =
      some { st with hungUp := true, wsOpen := false } ∧
    alGet (handleTwilioWebhookCompleted m callSid).callControlIdToCallId callSid = none ∧
    t ≤ hangupRejectTime t ∧ hangupRejectTime t - t ≤ 200 ∧
    mcpContinueCallResult (Except.error hangupErrorMessage) =
      { text := "Error: Call was hung up by user", isError := true } := by
  refine ⟨?_, ?_, ?_, ?_, ?_⟩
  · simp [handleTwilioWebhookCompleted, h1, alGet_alSet_self, h2]
  · simp [handleTwilioWebhookCompleted, h1, alGet_alRemove_self]
  · unfold hangupRejectTime HANGUP_POLL_INTERVAL_MS
    omega
  · unfold hangupRejectTime HANGUP_POLL_INTERVAL_MS
    omega
  · rfl

/-- C3, witness: the amended theorem at a concrete registry and a hang-up
arriving 250 ms into the wait. -/
theorem hangup_during_continue_call_witness :
    alGet (handleTwilioWebhookCompleted
      { activeCalls :=
          [("call-9", { wsToken := "tk9", wsOpen := true, streamSid := some "MZ9",
                        streamingReady := true, hungUp := false })],
        callControlIdToCallId := [("CA9", "call-9")],
        wsTokenToCallId := [("tk9", "call-9")],
        wsHost := "example.com", usingNgrok := false } "CA9").activeCalls "call-9" =
      some { wsToken := "tk9", wsOpen := false, streamSid := some "MZ9",
             streamingReady := true, hungUp := true } ∧
    alGet (handleTwilioWebhookCompleted
      { activeCalls :=
          [("call-9", { wsToken := "tk9", wsOpen := true, streamSid := some "MZ9",
                        streamingReady := true, hungUp := false })],
        callControlIdToCallId := [("CA9", "call-9")],
        wsTokenToCallId := [("tk9", "call-9")],
        wsHost := "example.com", usingNgrok := false } "CA9").callControlIdToCallId "CA9" = none ∧
    250 ≤ hangupRejectTime 250 ∧ hangupRejectTime 250 - 250 ≤ 200 ∧
    mcpContinueCallResult (Except.error hangupErrorMessage) =
      { text := "Error: Call was hung up by user", isError := true } :=
  hangup_during_continue_call
    { activeCalls :=
        [("call-9", { wsToken := "tk9", wsOpen := true, streamSid := some "MZ9",
                      streamingReady := true, hungUp := false })],
      callControlIdToCallId := [("CA9", "call-9")],
      wsTokenToCallId := [("tk9", "call-9")],
      wsHost := "example.com", usingNgrok := false }
    "CA9" "call-9"
    { wsToken := "tk9", wsOpen := true, streamSid := some "MZ9",
      streamingReady := true, hungUp := false }
    250 (by decide) (by decide)

/-! ### Claim C4

Embeds the outbound event iterator of
`NovaSonicSessionImpl.createAsyncIterable` (`sms-twilio.ts` lines 835-898).
Events are abstracted to `Nat` identifiers; the iterator state carries the
two outbound queues, the `modelSpeaking` flag (set by `handleResponseEvent`,
lines 940-987) and the `closeRequested` flag.
-/

/-- The mutable state read by the iterator's `next()`. -/
structure IterState where
  controlQueue : List Nat
  audioQueue : List Nat
  modelSpeaking : Bool
  closeRequested : Bool
deriving DecidableEq

/-- One outcome of `next()`: yield an event (with the successor state after
the `shift()`), finish the stream, or block awaiting `waitForQueue`. -/
inductive IterOutcome where
  | yieldControl (e : Nat) (st : IterState)
  | yieldAudio (e : Nat) (st : IterState)
  | done
  | blocked
deriving DecidableEq

/-- One step of the iterator's `next()`: (1) block while both queues are
empty and close was not requested; (2) shift a control event if available
(priority); (3) shift an audio event only when the model is not speaking;
(4) finish when close was requested and control events are drained;
(5) otherwise block (audio withheld while `modelSpeaking`). -/
def iterNext (st : IterState) : IterOutcome :=
  if st.controlQueue = [] ∧ st.audioQueue = [] ∧ st.closeRequested = false then
    .blocked
  else
    match st.controlQueue with
    | e :: rest => .yieldControl e { st with controlQueue := rest }
    | [] =>
      if st.modelSpeaking = false then
        match st.audioQueue with
        | e :: rest => .yieldAudio e { st with audioQueue := rest }
        | [] =>
          if st.closeRequested = true then .done else .blocked
      else
        if st.closeRequested = true then .done else .blocked

/-- C4: the outbound iterator gives control events strict priority — whenever
the control queue is non-empty (in particular when both queues are) the head
control event is yielded — and never yields an audio event while
`modelSpeaking` is true. -/
theorem iterNext_priority_and_gating (st : IterState) :
    (∀ e rest, st.controlQueue = e :: rest →
      iterNext st = .yieldControl e { st with controlQueue := rest }) ∧
      (st.modelSpeaking = true →
        ∀ e st2, iterNext st ≠ .yieldAudio e st2) := by
  constructor
  · intro e rest hc
    unfold iterNext
    rw [hc]
    simp
  · intro hm e st2
    unfold iterNext
    rcases hcq : st.controlQueue with _ | ⟨c, rest⟩
    · simp only [hcq, hm]
      split
      · simp
      · simp only [Bool.true_eq_false, if_false]
        split <;> simp
    · simp [hcq]

/-- C4, witness: the iterator theorem at a state with both queues non-empty
and the model speaking. -/
theorem iterNext_priority_and_gating_witness :
    iterNext { controlQueue := [5], audioQueue := [9],
               modelSpeaking := true, closeRequested := false } =
      .yieldControl 5 { controlQueue := [], audioQueue := [9],
                        modelSpeaking := true, closeRequested := false } ∧
    ∀ e st2,
      iterNext { controlQueue := [5], audioQueue := [9],
                 modelSpeaking := true, closeRequested := false } ≠
        .yieldAudio e st2 :=
  ⟨(iterNext_priority_and_gating _).1 5 [] rfl,
   (iterNext_priority_and_gating _).2 rfl⟩

/-! ### Claim C8

Embeds `CallManager.speakStreaming` (`phone-call.ts` lines 986-1042).  The
TTS stream delivers PCM byte chunks; the loop body is `speakStep`, the code
after the loop is `speakFinish`.  `sent` records the media chunks passed to
`sendMediaChunk`, in order.  The 20 ms sleeps between sends do not affect
which chunks are sent and are not modelled.
-/

/-- `readInt16LE` on a little-endian byte pair: unsigned value `lo + 256*hi`,
interpreted in two's complement. -/
def readInt16LE (lo hi : Nat) : Int :=
  let u := lo % 256 + 256 * (hi % 256)
  if u < 32768 then (u : Int) else (u : Int) - 65536

/-- Read a PCM byte buffer as its list of 16-bit samples (an odd trailing
byte, which the 6-byte alignment of `speakStreaming` never produces, is
ignored as `Buffer` reads would be). -/
def bytesToPcmSamples : List Nat → List Int
  | lo :: hi :: rest => readInt16LE lo hi :: bytesToPcmSamples rest
  | _ => []

/-- `OUTPUT_CHUNK_SIZE` (20 ms at 8 kHz µ-law). -/
def OUTPUT_CHUNK_SIZE : Nat := 160

/-- `JITTER_BUFFER_SIZE = (8000 / 1000) * JITTER_BUFFER_MS` with
`JITTER_BUFFER_MS = 100`: 800 bytes of µ-law. -/
def JITTER_BUFFER_SIZE : Nat := (8000 / 1000) * 100

/-- The `drainBuffer` helper of `speakStreaming`: while at least one full
160-byte chunk is buffered, send it and drop it from the buffer.  Returns
the chunks sent (in order) and the remaining buffer. -/
def drainBuffer (pendingMuLaw : List Nat) : List (List Nat) × List Nat :=
  if _h : OUTPUT_CHUNK_SIZE ≤ pendingMuLaw.length then
    let rest := drainBuffer (pendingMuLaw.drop OUTPUT_CHUNK_SIZE)
    (pendingMuLaw.take OUTPUT_CHUNK_SIZE :: rest.1, rest.2)
  else ([], pendingMuLaw)
termination_by pendingMuLaw.length
decreasing_by simp [OUTPUT_CHUNK_SIZE] at *; omega

/-- The local mutable state of `speakStreaming`, plus the trace of media
chunks sent so far. -/
structure SpeakState where
  pendingPcm : List Nat
  pendingMuLaw : List Nat
  playbackStarted : Bool
  sent : List (List Nat)
deriving DecidableEq

/-- The initial state of `speakStreaming`: empty buffers, playback not
started. -/
def speakInit : SpeakState :=
  { pendingPcm := [], pendingMuLaw := [], playbackStarted := false, sent := [] }

/-- The µ-law bytes produced by one loop iteration: the complete 6-byte units
of the concatenated pending PCM (`SAMPLES_PER_RESAMPLE = 6`), resampled
24 kHz → 8 kHz and µ-law encoded. -/
def newMuLaw (st : SpeakState) (chunk : List Nat) : List Nat :=
  let pendingPcm := st.pendingPcm ++ chunk
  let completeUnits := pendingPcm.length / 6
  let bytesToProcess := completeUnits * 6
  pcmToMuLaw (resample24kTo8k (bytesToPcmSamples (pendingPcm.take bytesToProcess)))

/-- The body of the `for await` loop of `speakStreaming` for one TTS chunk:
append the chunk to the pending PCM; if at least one 6-byte unit is complete,
resample and encode it, append to the µ-law buffer, and — unless playback has
not started and the jitter buffer is still below 800 bytes — mark playback
started and drain the buffer in 160-byte sends. -/
def speakStep (st : SpeakState) (chunk : List Nat) : SpeakState :=
  let pendingPcm := st.pendingPcm ++ chunk
  let completeUnits := pendingPcm.length / 6
  if 0 < completeUnits then
    let bytesToProcess := completeUnits * 6
    let pendingPcm2 := pendingPcm.drop bytesToProcess
    let pendingMuLaw := st.pendingMuLaw ++ newMuLaw st chunk
    if st.playbackStarted = false ∧ pendingMuLaw.length < JITTER_BUFFER_SIZE then
      { pendingPcm := pendingPcm2, pendingMuLaw := pendingMuLaw,
        playbackStarted := st.playbackStarted, sent := st.sent }
    else
      let d := drainBuffer pendingMuLaw
      { pendingPcm := pendingPcm2, pendingMuLaw := d.2,
        playbackStarted := true, sent := st.sent ++ d.1 }
  else
    { st with pendingPcm := pendingPcm }

/-- The code after the loop of `speakStreaming`: drain once more, then flush
any final partial chunk. -/
def speakFinish (st : SpeakState) : List (List Nat) :=
  let d := drainBuffer st.pendingMuLaw
  let sent := st.sent ++ d.1
  if 0 < d.2.length then sent ++ [d.2] else sent

/-- The whole of `speakStreaming` over the list of chunks the TTS stream
yields: run the loop body over each chunk, then finish. -/
def speakStreaming (chunks : List (List Nat)) : List (List Nat) :=
  speakFinish (chunks.foldl speakStep speakInit)

lemma drainBuffer_spec (p : List Nat) :
    (∀ x ∈ (drainBuffer p).1, x.length = OUTPUT_CHUNK_SIZE) ∧
      (drainBuffer p).2.length < OUTPUT_CHUNK_SIZE := by
  generalize hn : p.length = n
  induction n using Nat.strong_induction_on generalizing p with
  | _ n ih =>
    rw [drainBuffer]
    by_cases h : OUTPUT_CHUNK_SIZE ≤ p.length
    · simp only [h, dif_pos]
      have hchunk : OUTPUT_CHUNK_SIZE = 160 := rfl
      have hlen : (p.drop OUTPUT_CHUNK_SIZE).length < n := by
        simp only [List.length_drop]
        omega
      have hrec := ih _ hlen (p.drop OUTPUT_CHUNK_SIZE) rfl
      refine ⟨?_, hrec.2⟩
      intro x hx
      rcases List.mem_cons.mp hx with hx | hx
      · subst hx
        simp only [List.length_take]
        omega
      · exact hrec.1 x hx
    · simp only [h, dif_neg, not_false_iff]
      refine ⟨?_, by omega⟩
      intro x hx
      simp at hx

/-- C8: streaming TTS playback respects the jitter buffer.  While playback
has not started, a loop iteration either sends nothing or fires with at least
800 bytes (100 ms) of µ-law buffered; every chunk a loop iteration sends is
exactly 160 bytes; and after the stream ends the final drain-and-flush sends
only 160-byte chunks followed by at most one non-empty partial chunk. -/
theorem speakStreaming_jitter_buffer (st : SpeakState) (chunk : List Nat)
    (hps : st.playbackStarted = false) :
    ((speakStep st chunk).sent = st.sent ∨
        JITTER_BUFFER_SIZE ≤ (st.pendingMuLaw ++ newMuLaw st chunk).length) ∧
      (∃ new, (speakStep st chunk).sent = st.sent ++ new ∧
        ∀ x ∈ new, x.length = OUTPUT_CHUNK_SIZE) ∧
      (∃ fin, speakFinish st = st.sent ++ fin ∧
        (∀ x ∈ fin.dropLast, x.length = OUTPUT_CHUNK_SIZE) ∧
        (∀ x ∈ fin, 0 < x.length ∧ x.length ≤ OUTPUT_CHUNK_SIZE)) := by
  refine ⟨?_, ?_, ?_⟩
  · unfold speakStep
    dsimp only
    split
    · split
      · left
        rfl
      · rename_i h2
        right
        rcases not_and_or.mp h2 with h2 | h2
        · exact absurd hps h2
        · omega
    · left
      rfl
  · unfold speakStep
    dsimp only
    split
    · split
      · exact ⟨[], by simp, by simp⟩
      · refine ⟨(drainBuffer (st.pendingMuLaw ++ newMuLaw st chunk)).1, rfl,
          (drainBuffer_spec _).1⟩
    · exact ⟨[], by simp, by simp⟩
  · unfold speakFinish
    by_cases h : 0 < (drainBuffer st.pendingMuLaw).2.length
    · refine ⟨(drainBuffer st.pendingMuLaw).1 ++ [(drainBuffer st.pendingMuLaw).2],
        by simp [h], ?_, ?_⟩
      · intro x hx
        rw [List.dropLast_concat] at hx
        exact (drainBuffer_spec _).1 x hx
      · intro x hx
        have hchunk : OUTPUT_CHUNK_SIZE = 160 := rfl
        rcases List.mem_append.mp hx with hx | hx
        · have hxl := (drainBuffer_spec st.pendingMuLaw).1 x hx
          omega
        · simp at hx
          subst hx
          have hrem := (drainBuffer_spec st.pendingMuLaw).2
          omega
    · refine ⟨(drainBuffer st.pendingMuLaw).1, by simp [h], ?_, ?_⟩
      · intro x hx
        exact (drainBuffer_spec _).1 x (List.dropLast_subset _ hx)
      · intro x hx
        have hchunk : OUTPUT_CHUNK_SIZE = 160 := rfl
        have hxl := (drainBuffer_spec st.pendingMuLaw).1 x hx
        omega

/-- A concrete `speakStreaming` state for the C8 witness: one 6-byte PCM unit
short of the 800-byte jitter threshold, playback not started. -/
def speakWitnessState : SpeakState :=
  { pendingPcm := [], pendingMuLaw := List.replicate 799 255,
    playbackStarted := false, sent := [] }

/-- C8, witness: the jitter-buffer theorem at `speakWitnessState`, stepped
with one more 6-byte unit of silence. -/
theorem speakStreaming_jitter_buffer_witness :
    ((speakStep speakWitnessState [0, 0, 0, 0, 0, 0]).sent =
        speakWitnessState.sent ∨
      JITTER_BUFFER_SIZE ≤
        (speakWitnessState.pendingMuLaw ++
          newMuLaw speakWitnessState [0, 0, 0, 0, 0, 0]).length) ∧
    (∃ new, (speakStep speakWitnessState [0, 0, 0, 0, 0, 0]).sent =
        speakWitnessState.sent ++ new ∧
      ∀ x ∈ new, x.length = OUTPUT_CHUNK_SIZE) ∧
    (∃ fin, speakFinish speakWitnessState = speakWitnessState.sent ++ fin ∧
      (∀ x ∈ fin.dropLast, x.length = OUTPUT_CHUNK_SIZE) ∧
      (∀ x ∈ fin, 0 < x.length ∧ x.length ≤ OUTPUT_CHUNK_SIZE)) :=
  speakStreaming_jitter_buffer speakWitnessState [0, 0, 0, 0, 0, 0] rfl

/-! ### Claim C10

Embeds `executeTool` from `tools.ts` (lines 167-189).  The four tool
implementations perform network and subprocess I/O; they are abstracted by
`impl`, which either resolves to a string or throws with a message
(`ToolOutcome`).  The dispatch and the surrounding try/catch are embedded
exactly.
-/

/-- Outcome of awaiting one of the tool implementations: resolve with a
string, or throw an error whose `.message` is `msg`. -/
inductive ToolOutcome where
  | ok (s : String)
  | thrown (msg : String)
deriving DecidableEq

/-- The tool names of the `switch` in `executeTool` (the names of
`CALL_TOOL_CONFIG`). -/
def knownToolNames : List String :=
  ["get_system_metrics", "run_command", "docker_status", "service_health"]

/-- `executeTool(toolName, input)`: dispatch on the tool name; the default
case returns an `Unknown tool:` string; the try/catch converts any thrown
error into an `Error: ` string.  The function always resolves to a string. -/
def executeTool (toolName : String) (impl : String → ToolOutcome) : String :=
  let dispatched : ToolOutcome :=
    if toolName == "get_system_metrics" then impl toolName
    else if toolName == "run_command" then impl toolName
    else if toolName == "docker_status" then impl toolName
    else if toolName == "service_health" then impl toolName
    else .ok ("Unknown tool: " ++ toolName)
  match dispatched with
  | .ok s => s
  | .thrown msg => "Error: " ++ msg

/-- C10: `executeTool` is total — it always returns a string: an unrecognized
tool name yields the `Unknown tool:` string, a resolving implementation's
string is returned as-is, and a throwing implementation is converted into an
`Error: `-prefixed string, so a tool failure never escapes. -/
theorem executeTool_total (toolName : String) (impl : String → ToolOutcome) :
    (knownToolNames.contains toolName = false →
      executeTool toolName impl = "Unknown tool: " ++ toolName) ∧
      (knownToolNames.contains toolName = true →
        ∀ s, impl toolName = .ok s → executeTool toolName impl = s) ∧
      (knownToolNames.contains toolName = true →
        ∀ msg, impl toolName = .thrown msg →
          executeTool toolName impl = "Error: " ++ msg) := by
  refine ⟨?_, ?_, ?_⟩
  · intro h
    simp only [knownToolNames, List.contains_cons, List.contains_nil,
      Bool.or_eq_false_iff, beq_eq_false_iff_ne, ne_eq] at h
    obtain ⟨h1, h2, h3, h4, -⟩ := h
    simp [executeTool, h1, h2, h3, h4]
  · intro h s hs
    unfold executeTool
    by_cases h1 : toolName = "get_system_metrics"
    · have b1 : (toolName == "get_system_metrics") = true := by simp [h1]
      simp [b1, hs]
    · have b1 : (toolName == "get_system_metrics") = false := by simp [h1]
      by_cases h2 : toolName = "run_command"
      · have b2 : (toolName == "run_command") = true := by simp [h2]
        simp [b1, b2, hs]
      · have b2 : (toolName == "run_command") = false := by simp [h2]
        by_cases h3 : toolName = "docker_status"
        · have b3 : (toolName == "docker_status") = true := by simp [h3]
          simp [b1, b2, b3, hs]
        · have b3 : (toolName == "docker_status") = false := by simp [h3]
          by_cases h4 : toolName = "service_health"
          · have b4 : (toolName == "service_health") = true := by simp [h4]
            simp [b1, b2, b3, b4, hs]
          · exact absurd h (by
              simp [knownToolNames, h1, h2, h3, h4])
  · intro h msg hmsg
    unfold executeTool
    by_cases h1 : toolName = "get_system_metrics"
    · have b1 : (toolName == "get_system_metrics") = true := by simp [h1]
      simp [b1, hmsg]
    · have b1 : (toolName == "get_system_metrics") = false := by simp [h1]
      by_cases h2 : toolName = "run_command"
      · have b2 : (toolName == "run_command") = true := by simp [h2]
        simp [b1, b2, hmsg]
      · have b2 : (toolName == "run_command") = false := by simp [h2]
        by_cases h3 : toolName = "docker_status"
        · have b3 : (toolName == "docker_status") = true := by simp [h3]
          simp [b1, b2, b3, hmsg]
        · have b3 : (toolName == "docker_status") = false := by simp [h3]
          by_cases h4 : toolName = "service_health"
          · have b4 : (toolName == "service_health") = true := by simp [h4]
            simp [b1, b2, b3, b4, hmsg]
          · exact absurd h (by
              simp [knownToolNames, h1, h2, h3, h4])

/-- C10, witness: the totality theorem at an unknown tool name, a resolving
known tool, and a throwing known tool. -/
theorem executeTool_total_witness :
    executeTool "frobnicate" (fun _ => .ok "ignored") = "Unknown tool: frobnicate" ∧
      executeTool "service_health" (fun _ => .ok "api: healthy") = "api: healthy" ∧
      executeTool "run_command" (fun _ => .thrown "ssh timed out") =
        "Error: ssh timed out" :=
  ⟨(executeTool_total "frobnicate" (fun _ => .ok "ignored")).1 (by decide),
   (executeTool_total "service_health" (fun _ => .ok "api: healthy")).2.1
     (by decide) "api: healthy" rfl,
   (executeTool_total "run_command" (fun _ => .thrown "ssh timed out")).2.2
     (by decide) "ssh timed out" rfl⟩

end TTC
